import Mathlib

/-!
Verification of the Chromadeck slide-editor core against its design spec.

The definitions below are a shallow embedding of the TypeScript source:

* `PresentationState` and its operations mirror the Redux reducers in
  `src/app/redux/presentationSlice.ts` (addSlide, deleteSlide,
  setCurrentSlide, updateSlide, duplicateSlide, reorderSlides,
  loadPresentation, clearPresentation, markAsSaved).
* `handleDeleteSlide` mirrors the UI guard in
  `src/app/components/slideList.tsx`.
* The JSON model (`JValue`, `validatePresentationData`) mirrors
  `FileHandlers.validatePresentationData` / `loadJSONFile` in
  `src/app/utils/fileHandlers.ts`.
* `addRectanglePos` mirrors the clamping arithmetic of `addRectangle` in
  `src/app/components/slideCanvas.tsx`.
* `EditorModel` is a small event-level model of the canvas component's
  debounced-save closure and of the async image-insert completions in
  `slideCanvas.tsx`.

Modelling conventions: JS timestamps (`Date.now()`) are passed in as an
explicit `now : Nat` argument; the id generator
(`slide-${timestamp}-${random}`, fresh with probability 1) is modelled as
a fresh counter `nextId` carried in the state; JS strings stay `String`,
JS numbers used only for comparison/typing stay `Nat`/`Int`/`ℚ` as noted.
-/

/-- The tool enum of `PresentationState.selectedTool`. -/
inductive Tool where
  | select | text | rectangle | circle | line | image
deriving DecidableEq, Repr

/-- A slide record, from `presentationSlice.ts` (`canvasData` is the
serialized scene snapshot; `id` is modelled as a `Nat` drawn from a fresh
counter, standing for the generated string id). -/
structure Slide where
  id : Nat
  name : String
  canvasData : String
  thumbnail : Option String
  createdAt : Nat
  updatedAt : Nat
deriving DecidableEq, Repr

/-- The Redux `PresentationState`, plus the `nextId` counter modelling the
fresh-id generator. `isLoading` is omitted (no claim mentions it). -/
structure PresentationState where
  slides : List Slide
  currentSlideId : Option Nat
  currentSlideIndex : Int
  selectedTool : Tool
  presentationName : String
  lastSaved : Option Nat
  isDirty : Bool
  error : Option String
  nextId : Nat
deriving DecidableEq, Repr

/-- `initialState` from `presentationSlice.ts`. -/
def initialState : PresentationState where
  slides := []
  currentSlideId := none
  currentSlideIndex := -1
  selectedTool := .select
  presentationName := "Untitled Presentation"
  lastSaved := none
  isDirty := false
  error := none
  nextId := 0

/-- `JSON.stringify({ objects: [], background: '#ffffff' })`, the empty
scene snapshot a new slide starts with. -/
def emptyCanvasData : String := "\x7b\"objects\":[],\"background\":\"#ffffff\"\x7d"

/- Self-contained list helpers mirroring the JS array operations used by
the reducers (`findIndex`, `splice(i,1)`, `splice(i,0,x)`, indexing). -/

/-- JS `Array.prototype.findIndex` (as an `Option Nat`). -/
def findIndex (p : Slide → Bool) : List Slide → Option Nat
  | [] => none
  | x :: xs => if p x then some 0 else (findIndex p xs).map (· + 1)

/-- JS `splice(i, 1)`: remove the element at index `i` (no-op out of range). -/
def removeAt : List Slide → Nat → List Slide
  | [], _ => []
  | _ :: xs, 0 => xs
  | x :: xs, n + 1 => x :: removeAt xs n

/-- JS `splice(i, 0, a)`: insert `a` at index `i` (appends when out of range). -/
def insertAt : List Slide → Nat → Slide → List Slide
  | l, 0, a => a :: l
  | [], _ + 1, a => [a]
  | x :: xs, n + 1, a => x :: insertAt xs n a

/-- JS indexing `l[n]` (as an `Option`). -/
def nth : List Slide → Nat → Option Slide
  | [], _ => none
  | x :: _, 0 => some x
  | _ :: xs, n + 1 => nth xs n

/-- Replace the first slide satisfying `p` (JS `find` + in-place mutation). -/
def updateFirst (p : Slide → Bool) (g : Slide → Slide) : List Slide → List Slide
  | [] => []
  | x :: xs => if p x then g x :: xs else x :: updateFirst p g xs

/-- JS `Array.prototype.find` (first match). -/
def findSlide (p : Slide → Bool) : List Slide → Option Slide
  | [] => none
  | x :: xs => if p x then some x else findSlide p xs

/-- Reducer `addSlide` (`{ name? }` payload): appends a fresh slide with an
empty snapshot; `if (!state.currentSlideId)` makes it current; sets
`isDirty`. -/
def addSlide (s : PresentationState) (name? : Option String) (now : Nat) :
    PresentationState :=
  let newSlide : Slide :=
    { id := s.nextId
      name := name?.getD ("Slide " ++ toString (s.slides.length + 1))
      canvasData := emptyCanvasData
      thumbnail := none
      createdAt := now
      updatedAt := now }
  match s.currentSlideId with
  | none =>
      { s with slides := s.slides ++ [newSlide]
               currentSlideId := some newSlide.id
               currentSlideIndex := 0
               isDirty := true
               nextId := s.nextId + 1 }
  | some _ =>
      { s with slides := s.slides ++ [newSlide]
               isDirty := true
               nextId := s.nextId + 1 }

/-- Reducer `deleteSlide`: removes the slide when found (there is NO
last-slide guard here); when the current slide is removed, selects index
`slideIndex > 0 ? slideIndex - 1 : 0` (or none when empty).
`currentSlideIndex` and `isDirty` are untouched, as in the source. -/
def deleteSlide (s : PresentationState) (slideId : Nat) : PresentationState :=
  match findIndex (fun sl => sl.id = slideId) s.slides with
  | none => s
  | some slideIndex =>
      let slides' := removeAt s.slides slideIndex
      if s.currentSlideId = some slideId then
        if 0 < slides'.length then
          let newIndex := if 0 < slideIndex then slideIndex - 1 else 0
          { s with slides := slides'
                   currentSlideId := (nth slides' newIndex).map Slide.id }
        else
          { s with slides := slides', currentSlideId := none }
      else
        { s with slides := slides' }

/-- Reducer `setCurrentSlide`: no state change when the id is unknown. -/
def setCurrentSlide (s : PresentationState) (slideId : Nat) :
    PresentationState :=
  match findIndex (fun sl => sl.id = slideId) s.slides with
  | none => s
  | some idx =>
      { s with currentSlideId := some slideId, currentSlideIndex := idx }

/-- The `updateSlide` payload `{ id, canvasData?, name?, thumbnail? }`. -/
structure SlidePatch where
  id : Nat
  canvasData : Option String
  name : Option String
  thumbnail : Option String
deriving DecidableEq, Repr

/-- The per-slide mutation performed by reducer `updateSlide` on the found
slide (each present field replaces the old one; `updatedAt` stamped). -/
def applyPatch (p : SlidePatch) (now : Nat) (sl : Slide) : Slide :=
  { sl with canvasData := p.canvasData.getD sl.canvasData
            name := p.name.getD sl.name
            thumbnail := (p.thumbnail.map some).getD sl.thumbnail
            updatedAt := now }

/-- Reducer `updateSlide`: patches the first slide with the given id;
`canvasData` or `name` present sets `isDirty`; thumbnail alone does not. -/
def updateSlide (s : PresentationState) (p : SlidePatch) (now : Nat) :
    PresentationState :=
  match findSlide (fun sl => sl.id = p.id) s.slides with
  | none => s
  | some _ =>
      { s with
        slides := updateFirst (fun sl => sl.id = p.id) (applyPatch p now) s.slides
        isDirty :=
          if p.canvasData.isSome then true
          else if p.name.isSome then true
          else s.isDirty }

/-- Reducer `duplicateSlide`: inserts a copy (fresh id, `" (Copy)"` name,
fresh timestamps) right after the original; `isDirty` untouched. -/
def duplicateSlide (s : PresentationState) (slideId : Nat) (now : Nat) :
    PresentationState :=
  match findSlide (fun sl => sl.id = slideId) s.slides with
  | none => s
  | some orig =>
      let dup : Slide :=
        { orig with id := s.nextId
                    name := orig.name ++ " (Copy)"
                    createdAt := now
                    updatedAt := now }
      let originalIndex := (findIndex (fun sl => sl.id = slideId) s.slides).getD 0
      { s with slides := insertAt s.slides (originalIndex + 1) dup
               nextId := s.nextId + 1 }

/-- Reducer `reorderSlides`: bounds-checked move; `isDirty` untouched.
(The JS also checks `fromIndex >= 0 && toIndex >= 0`; `Nat` indices make
that automatic.) -/
def reorderSlides (s : PresentationState) (fromIndex toIndex : Nat) :
    PresentationState :=
  if fromIndex < s.slides.length ∧ toIndex < s.slides.length then
    match nth s.slides fromIndex with
    | none => s
    | some moved =>
        { s with slides := insertAt (removeAt s.slides fromIndex) toIndex moved }
  else s

/-- Reducer `loadPresentation`: wholesale replacement; first slide (if any)
becomes current; clears `isDirty` and `error`; stamps `lastSaved`. -/
def loadPresentation (s : PresentationState) (slides : List Slide)
    (name : String) (now : Nat) : PresentationState :=
  { s with slides := slides
           presentationName := name
           currentSlideId := (slides.head?).map Slide.id
           currentSlideIndex := if 0 < slides.length then 0 else -1
           lastSaved := some now
           isDirty := false
           error := none }

/-- Reducer `clearPresentation`: empties slides, clears the current slide,
resets the name, clears `lastSaved` and `error`. It does NOT touch
`isDirty`, `selectedTool` or `currentSlideIndex` (faithful to source). -/
def clearPresentation (s : PresentationState) : PresentationState :=
  { s with slides := []
           currentSlideId := none
           presentationName := "Untitled Presentation"
           lastSaved := none
           error := none }

/-- Reducer `markAsSaved`. -/
def markAsSaved (s : PresentationState) (now : Nat) : PresentationState :=
  { s with lastSaved := some now, isDirty := false }

/-- The UI delete handler in `slideList.tsx`: dispatches `deleteSlide` only
when more than one slide exists; otherwise it does nothing (silently). -/
def handleDeleteSlide (s : PresentationState) (slideId : Nat) :
    PresentationState :=
  if 1 < s.slides.length then deleteSlide s slideId else s

/- List-level helper lemmas about the JS array-operation models. -/

lemma removeAt_length_ge (l : List Slide) (n : Nat) :
    l.length - 1 ≤ (removeAt l n).length := by
  induction l generalizing n with
  | nil => simp [removeAt]
  | cons x xs ih =>
      cases n with
      | zero => simp [removeAt]
      | succ m =>
          have := ih m
          simp only [removeAt, List.length_cons]
          omega

lemma findSlide_id_none {l : List Slide} {i : Nat}
    (h : ∀ x ∈ l, x.id ≠ i) :
    findSlide (fun sl => sl.id = i) l = none := by
  induction l with
  | nil => rfl
  | cons x xs ih =>
      have hx : x.id ≠ i := h x (by simp)
      simp only [findSlide]
      rw [if_neg (by simp [hx])]
      exact ih fun y hy => h y (by simp [hy])

lemma findSlide_id_append {pre post : List Slide} {old : Slide} {i : Nat}
    (hpre : ∀ x ∈ pre, x.id ≠ i) (hold : old.id = i) :
    findSlide (fun sl => sl.id = i) (pre ++ old :: post) = some old := by
  induction pre with
  | nil => simp [findSlide, hold]
  | cons x xs ih =>
      have hx : x.id ≠ i := hpre x (by simp)
      simp only [List.cons_append, findSlide]
      rw [if_neg (by simp [hx])]
      exact ih fun y hy => hpre y (by simp [hy])

lemma updateFirst_id_append (g : Slide → Slide)
    {pre post : List Slide} {old : Slide} {i : Nat}
    (hpre : ∀ x ∈ pre, x.id ≠ i) (hold : old.id = i) :
    updateFirst (fun sl => sl.id = i) g (pre ++ old :: post) =
      pre ++ g old :: post := by
  induction pre with
  | nil => simp [updateFirst, hold]
  | cons x xs ih =>
      have hx : x.id ≠ i := hpre x (by simp)
      simp only [List.cons_append, updateFirst]
      rw [if_neg (by simp [hx])]
      exact congrArg (x :: ·) (ih fun y hy => hpre y (by simp [hy]))

lemma deleteSlide_slides_cases (s : PresentationState) (i : Nat) :
    (deleteSlide s i).slides = s.slides ∨
    ∃ n, (deleteSlide s i).slides = removeAt s.slides n := by
  unfold deleteSlide
  cases h : findIndex (fun sl => sl.id = i) s.slides with
  | none => exact Or.inl rfl
  | some n =>
      right
      refine ⟨n, ?_⟩
      dsimp only
      split_ifs <;> rfl

/-- A concrete reachable state holding exactly one slide. -/
def oneSlideState : PresentationState := addSlide initialState (some "Slide 1") 0

/-- C1 counterexample: the store-level `deleteSlide`, dispatched with the id
of the sole remaining slide, is NOT refused: it empties the slide list
(the claim asserts the state is left unchanged). -/
theorem C1_deleteSlide_sole_slide_not_refused :
    (deleteSlide oneSlideState 0).slides = [] ∧
    oneSlideState.slides.length = 1 ∧
    deleteSlide oneSlideState 0 ≠ oneSlideState := by
  refine ⟨rfl, rfl, ?_⟩
  intro h
  have : (deleteSlide oneSlideState 0).slides.length =
      oneSlideState.slides.length := by rw [h]
  simp at this
  exact absurd this (by decide)

/-- C1 (amended): the last-slide refusal lives in the UI handler
`handleDeleteSlide`, which silently declines to dispatch when only one
slide exists; through that handler the slide count never reaches 0 once
it is ≥ 1. -/
theorem C1_handleDeleteSlide_refuses_last (s : PresentationState)
    (slideId : Nat) :
    (s.slides.length = 1 → handleDeleteSlide s slideId = s) ∧
    (s.slides ≠ [] → (handleDeleteSlide s slideId).slides ≠ []) := by
  constructor
  · intro h1
    unfold handleDeleteSlide
    rw [if_neg (by omega)]
  · intro hne
    unfold handleDeleteSlide
    split_ifs with hlen
    · rcases deleteSlide_slides_cases s slideId with h | ⟨n, h⟩
      · rw [h]; exact hne
      · rw [h]
        have := removeAt_length_ge s.slides n
        intro hempty
        rw [hempty] at this
        simp at this
        omega
    · exact hne

/-- C1 witness: at the concrete one-slide state, the handler leaves the
state unchanged and the slide list non-empty. -/
theorem C1_handleDeleteSlide_refuses_last_witness :
    handleDeleteSlide oneSlideState 0 = oneSlideState ∧
    (handleDeleteSlide oneSlideState 0).slides ≠ [] :=
  ⟨(C1_handleDeleteSlide_refuses_last oneSlideState 0).1 rfl,
   (C1_handleDeleteSlide_refuses_last oneSlideState 0).2 (by decide)⟩

/-- C9 counterexample: `clearPresentation` does NOT reset the dirty flag.
Starting from the initial state, adding a slide sets `isDirty`; clearing
the document leaves it set, while the initial value is `false`. -/
theorem C9_clearPresentation_keeps_dirty :
    (clearPresentation (addSlide initialState (some "Slide 1") 0)).isDirty
      = true ∧
    initialState.isDirty = false :=
  ⟨rfl, rfl⟩

/-- C9 (amended): `clearPresentation` empties the slide list, clears the
active slide, resets the name to the untitled default and clears
`lastSaved` and `error`, but leaves the dirty flag, the selected tool and
`currentSlideIndex` unchanged. -/
theorem C9_clearPresentation_resets (s : PresentationState) :
    (clearPresentation s).slides = [] ∧
    (clearPresentation s).currentSlideId = none ∧
    (clearPresentation s).presentationName = "Untitled Presentation" ∧
    (clearPresentation s).lastSaved = none ∧
    (clearPresentation s).error = none ∧
    (clearPresentation s).isDirty = s.isDirty ∧
    (clearPresentation s).selectedTool = s.selectedTool ∧
    (clearPresentation s).currentSlideIndex = s.currentSlideIndex :=
  ⟨rfl, rfl, rfl, rfl, rfl, rfl, rfl, rfl⟩

/-- C10: `deleteSlide`, `duplicateSlide` and `reorderSlides` never change
the dirty flag (nor does `setCurrentSlide` or a thumbnail-only
`updateSlide`); among the store operations only `addSlide` (always) and
`updateSlide` with `canvasData`/`name` set it. -/
theorem C10_dirty_frame (s : PresentationState)
    (slideId fromIndex toIndex now pid : Nat) (th : Option String) :
    (deleteSlide s slideId).isDirty = s.isDirty ∧
    (duplicateSlide s slideId now).isDirty = s.isDirty ∧
    (reorderSlides s fromIndex toIndex).isDirty = s.isDirty ∧
    (setCurrentSlide s slideId).isDirty = s.isDirty ∧
    (updateSlide s ⟨pid, none, none, th⟩ now).isDirty = s.isDirty ∧
    (addSlide s none now).isDirty = true := by
  refine ⟨?_, ?_, ?_, ?_, ?_, ?_⟩
  · unfold deleteSlide
    cases findIndex (fun sl => sl.id = slideId) s.slides with
    | none => rfl
    | some n => dsimp only; split_ifs <;> rfl
  · unfold duplicateSlide
    cases findSlide (fun sl => sl.id = slideId) s.slides with
    | none => rfl
    | some orig => rfl
  · unfold reorderSlides
    split_ifs with h
    · cases nth s.slides fromIndex with
      | none => rfl
      | some moved => rfl
    · rfl
  · unfold setCurrentSlide
    cases findIndex (fun sl => sl.id = slideId) s.slides with
    | none => rfl
    | some n => rfl
  · unfold updateSlide
    cases findSlide (fun sl => sl.id = pid) s.slides with
    | none => rfl
    | some sl => rfl
  · unfold addSlide
    cases s.currentSlideId with
    | none => rfl
    | some c => rfl

/-- C6: `updateSlide` with a matching id replaces exactly the present patch
fields on the first matching slide, stamps `updatedAt` with the current
time, and sets the dirty flag when `canvasData` or `name` is present; with
no matching id the state is unchanged. -/
theorem C6_updateSlide_spec (s : PresentationState) (p : SlidePatch)
    (now : Nat) :
    ((∀ sl ∈ s.slides, sl.id ≠ p.id) → updateSlide s p now = s) ∧
    (∀ pre old post,
        s.slides = pre ++ old :: post →
        (∀ x ∈ pre, x.id ≠ p.id) →
        old.id = p.id →
        (updateSlide s p now).slides =
          pre ++ { old with
                     canvasData := p.canvasData.getD old.canvasData
                     name := p.name.getD old.name
                     thumbnail := (p.thumbnail.map some).getD old.thumbnail
                     updatedAt := now } :: post ∧
          ((p.canvasData.isSome ∨ p.name.isSome) →
              (updateSlide s p now).isDirty = true)) := by
  constructor
  · intro hnone
    unfold updateSlide
    rw [findSlide_id_none hnone]
  · intro pre old post hsplit hpre hold
    have hfind : findSlide (fun sl => sl.id = p.id) s.slides = some old := by
      rw [hsplit]; exact findSlide_id_append hpre hold
    constructor
    · unfold updateSlide
      rw [hfind]
      simp only []
      rw [hsplit, updateFirst_id_append _ hpre hold]
      rfl
    · intro hsome
      unfold updateSlide
      rw [hfind]
      rcases hsome with h | h
      · rcases Option.isSome_iff_exists.mp h with ⟨v, hv⟩
        simp [hv]
      · rcases Option.isSome_iff_exists.mp h with ⟨v, hv⟩
        cases hc : p.canvasData <;> simp [hv, hc]

/-- C6 witness: patching the sole slide of the concrete one-slide state
with a new snapshot replaces `canvasData`, stamps `updatedAt := 7`, and
sets the dirty flag. -/
theorem C6_updateSlide_spec_witness :
    (updateSlide oneSlideState ⟨0, some "NEW", none, none⟩ 7).slides =
      [{ id := 0, name := "Slide 1", canvasData := "NEW", thumbnail := none,
         createdAt := 0, updatedAt := 7 }] ∧
    (updateSlide oneSlideState ⟨0, some "NEW", none, none⟩ 7).isDirty = true := by
  have h := (C6_updateSlide_spec oneSlideState ⟨0, some "NEW", none, none⟩ 7).2
    [] { id := 0, name := "Slide 1", canvasData := emptyCanvasData,
         thumbnail := none, createdAt := 0, updatedAt := 0 } []
    rfl (by intro x hx; simp at hx) rfl
  exact ⟨h.1, h.2 (Or.inl rfl)⟩


/- ===== C2: the active-slide invariant over operation sequences ===== -/

/-- The store operations quantified over by the active-slide invariant. -/
inductive StoreOp where
  | add (name? : Option String) (now : Nat)
  | delete (id : Nat)
  | setCurrent (id : Nat)
deriving DecidableEq, Repr

/-- Dispatch one store operation. -/
def applyOp (s : PresentationState) : StoreOp → PresentationState
  | .add n t => addSlide s n t
  | .delete i => deleteSlide s i
  | .setCurrent i => setCurrentSlide s i

/-- Run a sequence of store operations from the initial empty state. -/
def runOps (ops : List StoreOp) : PresentationState :=
  ops.foldl applyOp initialState

/-- The ids of a slide list, in order. -/
def idsOf (l : List Slide) : List Nat := l.map Slide.id

/-- The store invariant: slide ids are distinct and below the fresh
counter; the current id is present iff the list is non-empty, and always
names a slide in the list. -/
def StoreInv (s : PresentationState) : Prop :=
  (idsOf s.slides).Nodup ∧
  (∀ sl ∈ s.slides, sl.id < s.nextId) ∧
  (s.currentSlideId = none ↔ s.slides = []) ∧
  (∀ i, s.currentSlideId = some i → i ∈ idsOf s.slides)

lemma findIndex_lt_length {p : Slide → Bool} {l : List Slide} {n : Nat}
    (h : findIndex p l = some n) : n < l.length := by
  induction l generalizing n with
  | nil => simp [findIndex] at h
  | cons x xs ih =>
      simp only [findIndex] at h
      by_cases hx : p x = true
      · rw [if_pos hx] at h
        injection h with h
        subst h
        simp
      · rw [if_neg hx] at h
        rcases Option.map_eq_some'.mp h with ⟨m, hm, hf⟩
        subst hf
        have := ih hm
        simp only [List.length_cons]
        omega

lemma findIndex_nth {p : Slide → Bool} {l : List Slide} {n : Nat}
    (h : findIndex p l = some n) :
    ∃ sl, nth l n = some sl ∧ p sl = true := by
  induction l generalizing n with
  | nil => simp [findIndex] at h
  | cons x xs ih =>
      simp only [findIndex] at h
      by_cases hx : p x = true
      · rw [if_pos hx] at h
        injection h with h
        subst h
        exact ⟨x, rfl, hx⟩
      · rw [if_neg hx] at h
        rcases Option.map_eq_some'.mp h with ⟨m, hm, hf⟩
        subst hf
        exact ih hm

lemma nth_some_of_lt {l : List Slide} {n : Nat} (h : n < l.length) :
    ∃ sl, nth l n = some sl := by
  induction l generalizing n with
  | nil => simp at h
  | cons x xs ih =>
      cases n with
      | zero => exact ⟨x, rfl⟩
      | succ m => exact ih (by simpa using h)

lemma nth_mem {l : List Slide} {n : Nat} {sl : Slide}
    (h : nth l n = some sl) : sl ∈ l := by
  induction l generalizing n with
  | nil => simp [nth] at h
  | cons x xs ih =>
      cases n with
      | zero =>
          injection h with h
          subst h
          simp
      | succ m => exact List.mem_cons_of_mem _ (ih h)

lemma removeAt_sublist (l : List Slide) (n : Nat) :
    List.Sublist (removeAt l n) l := by
  induction l generalizing n with
  | nil => simp [removeAt]
  | cons x xs ih =>
      cases n with
      | zero => exact List.sublist_cons_self x xs
      | succ m => exact List.Sublist.cons₂ x (ih m)

lemma removeAt_length_eq {l : List Slide} {n : Nat} (h : n < l.length) :
    (removeAt l n).length = l.length - 1 := by
  induction l generalizing n with
  | nil => simp at h
  | cons x xs ih =>
      cases n with
      | zero => simp [removeAt]
      | succ m =>
          have hm : m < xs.length := by simpa using h
          have := ih hm
          simp only [removeAt, List.length_cons, this]
          omega

lemma mem_idsOf_removeAt {l : List Slide} {d n c : Nat}
    (h : findIndex (fun sl => sl.id = d) l = some n)
    (hc : c ∈ idsOf l) (hne : c ≠ d) : c ∈ idsOf (removeAt l n) := by
  induction l generalizing n with
  | nil => simp [findIndex] at h
  | cons x xs ih =>
      simp only [findIndex] at h
      by_cases hx : x.id = d
      · rw [if_pos (by simp [hx])] at h
        injection h with h
        subst h
        simp only [idsOf, List.map_cons, List.mem_cons] at hc
        rcases hc with h1 | h1
        · exact absurd (h1.trans hx) hne
        · simpa [removeAt, idsOf] using h1
      · rw [if_neg (by simp [hx])] at h
        rcases Option.map_eq_some'.mp h with ⟨m, hm, hf⟩
        subst hf
        simp only [removeAt, idsOf, List.map_cons, List.mem_cons] at hc ⊢
        rcases hc with h1 | h1
        · exact Or.inl h1
        · exact Or.inr (ih hm h1)

lemma countP_id_eq_one {l : List Slide} {i : Nat}
    (hnd : (idsOf l).Nodup) (hm : i ∈ idsOf l) :
    l.countP (fun sl => sl.id = i) = 1 := by
  induction l with
  | nil => simp [idsOf] at hm
  | cons x xs ih =>
      simp only [idsOf, List.map_cons, List.nodup_cons, List.mem_cons] at hnd hm
      rcases hm with h | h
      · subst h
        have hzero : xs.countP (fun sl => sl.id = x.id) = 0 := by
          rw [List.countP_eq_zero]
          intro a ha hpa
          have haid : a.id = x.id := by simpa using hpa
          exact hnd.1 (by rw [← haid]; exact List.mem_map_of_mem Slide.id ha)
        simp [List.countP_cons, hzero]
      · have hx : x.id ≠ i := fun hxi => hnd.1 (hxi ▸ h)
        simp [List.countP_cons, hx, ih hnd.2 h]

lemma idsOf_append_fresh_nodup {l : List Slide} {k : Nat}
    (hnd : (idsOf l).Nodup) (hlt : ∀ sl ∈ l, sl.id < k) (sl0 : Slide)
    (hid : sl0.id = k) : (idsOf (l ++ [sl0])).Nodup := by
  simp only [idsOf, List.map_append, List.map_cons, List.map_nil]
  rw [List.nodup_append]
  refine ⟨hnd, List.nodup_singleton _, ?_⟩
  intro a ha hb
  simp only [List.mem_singleton] at hb
  rcases List.mem_map.mp ha with ⟨sl, hsl, hsid⟩
  have : a < k := hsid ▸ hlt sl hsl
  omega

lemma storeInv_addSlide {s : PresentationState}
    (h : StoreInv s) (name? : Option String) (now : Nat) :
    StoreInv (addSlide s name? now) := by
  obtain ⟨hnd, hlt, hiff, hmem⟩ := h
  unfold addSlide
  cases hc : s.currentSlideId with
  | none =>
      dsimp only
      refine ⟨idsOf_append_fresh_nodup hnd hlt _ rfl, ?_, ?_, ?_⟩
      · intro sl hsl
        rcases List.mem_append.mp hsl with h1 | h1
        · exact Nat.lt_succ_of_lt (hlt sl h1)
        · simp only [List.mem_singleton] at h1
          subst h1
          exact Nat.lt_succ_self _
      · simp
      · intro i hi
        simp only [Option.some_inj] at hi
        subst hi
        simp [idsOf]
  | some c =>
      dsimp only
      refine ⟨idsOf_append_fresh_nodup hnd hlt _ rfl, ?_, ?_, ?_⟩
      · intro sl hsl
        rcases List.mem_append.mp hsl with h1 | h1
        · exact Nat.lt_succ_of_lt (hlt sl h1)
        · simp only [List.mem_singleton] at h1
          subst h1
          exact Nat.lt_succ_self _
      · constructor
        · intro hcontra
          simp at hcontra
        · intro hempty
          rcases List.append_eq_nil.mp hempty with ⟨_, h2⟩
          cases h2
      · intro i hi
        simp only [Option.some_inj] at hi
        subst hi
        have := hmem c hc
        simp only [idsOf, List.map_append]
        exact List.mem_append_left _ this

lemma storeInv_setCurrentSlide {s : PresentationState}
    (h : StoreInv s) (i : Nat) : StoreInv (setCurrentSlide s i) := by
  obtain ⟨hnd, hlt, hiff, hmem⟩ := h
  unfold setCurrentSlide
  cases hf : findIndex (fun sl => sl.id = i) s.slides with
  | none => exact ⟨hnd, hlt, hiff, hmem⟩
  | some n =>
      obtain ⟨sl, hsl, hpsl⟩ := findIndex_nth hf
      have hslmem : sl ∈ s.slides := nth_mem hsl
      have hid : sl.id = i := by simpa using hpsl
      dsimp only
      refine ⟨hnd, hlt, ?_, ?_⟩
      · constructor
        · intro hcontra; cases hcontra
        · intro hempty
          rw [hempty] at hslmem
          cases hslmem
      · intro j hj
        simp only [Option.some_inj] at hj
        subst hj
        exact hid ▸ List.mem_map_of_mem Slide.id hslmem

lemma storeInv_delete_current_case {s : PresentationState} {n k : Nat}
    (hnd' : (idsOf (removeAt s.slides n)).Nodup)
    (hlt' : ∀ sl ∈ removeAt s.slides n, sl.id < s.nextId)
    (hk : k < (removeAt s.slides n).length) :
    StoreInv { s with slides := removeAt s.slides n,
                      currentSlideId := (nth (removeAt s.slides n) k).map Slide.id } := by
  obtain ⟨sl, hsl⟩ := nth_some_of_lt hk
  refine ⟨hnd', hlt', ?_, ?_⟩
  · dsimp only
    rw [hsl]
    constructor
    · intro hcontra; simp at hcontra
    · intro hempty
      rw [hempty] at hk
      simp at hk
  · intro j hj
    dsimp only at hj ⊢
    rw [hsl] at hj
    simp at hj
    subst hj
    exact List.mem_map_of_mem Slide.id (nth_mem hsl)

lemma storeInv_deleteSlide {s : PresentationState}
    (h : StoreInv s) (d : Nat) : StoreInv (deleteSlide s d) := by
  obtain ⟨hnd, hlt, hiff, hmem⟩ := h
  unfold deleteSlide
  cases hf : findIndex (fun sl => sl.id = d) s.slides with
  | none => exact ⟨hnd, hlt, hiff, hmem⟩
  | some n =>
      have hnlt : n < s.slides.length := findIndex_lt_length hf
      have hsub := removeAt_sublist s.slides n
      have hnd' : (idsOf (removeAt s.slides n)).Nodup :=
        (hsub.map Slide.id).nodup hnd
      have hlt' : ∀ sl ∈ removeAt s.slides n, sl.id < s.nextId :=
        fun sl hsl => hlt sl (hsub.subset hsl)
      have hlen_eq : (removeAt s.slides n).length = s.slides.length - 1 :=
        removeAt_length_eq hnlt
      dsimp only
      split_ifs with hcur hlen hn
      · exact storeInv_delete_current_case hnd' hlt' (by omega)
      · exact storeInv_delete_current_case hnd' hlt' (by omega)
      · refine ⟨hnd', hlt', ?_, ?_⟩
        · dsimp only
          constructor
          · intro _
            exact List.length_eq_zero.mp (by omega)
          · intro _; rfl
        · intro j hj
          dsimp only at hj
          simp at hj
      · refine ⟨hnd', hlt', ?_, ?_⟩
        · dsimp only
          cases hc : s.currentSlideId with
          | none => exact absurd hnlt (by rw [hiff.mp hc]; simp)
          | some c =>
              constructor
              · intro hcontra; simp at hcontra
              · intro hempty
                have hcne : c ≠ d := fun hcd => hcur (by rw [hc, hcd])
                have hcm := mem_idsOf_removeAt hf (hmem c hc) hcne
                rw [hempty] at hcm
                simp [idsOf] at hcm
        · intro j hj
          dsimp only at hj ⊢
          have hcne : j ≠ d := fun hcd => hcur (by rw [hj, hcd])
          exact mem_idsOf_removeAt hf (hmem j hj) hcne

lemma storeInv_runOps (ops : List StoreOp) : StoreInv (runOps ops) := by
  have hinit : StoreInv initialState := by
    refine ⟨by simp [idsOf, initialState], ?_, by simp [initialState], ?_⟩
    · intro sl hsl
      simp [initialState] at hsl
    · intro i hi
      simp [initialState] at hi
  have hstep : ∀ (s : PresentationState), StoreInv s →
      ∀ (l : List StoreOp), StoreInv (l.foldl applyOp s) := by
    intro s hs l
    induction l generalizing s with
    | nil => exact hs
    | cons op rest ih =>
        apply ih
        cases op with
        | add n t => exact storeInv_addSlide hs n t
        | delete i => exact storeInv_deleteSlide hs i
        | setCurrent i => exact storeInv_setCurrentSlide hs i
  exact hstep initialState hinit ops

/-- C2: after any finite sequence of `addSlide`/`deleteSlide`/
`setCurrentSlide` from the initial empty state, a current slide exists iff
the slide list is non-empty, and a non-null current id names exactly one
slide of the list. -/
theorem C2_active_slide_invariant (ops : List StoreOp) :
    ((runOps ops).currentSlideId.isSome ↔ (runOps ops).slides ≠ []) ∧
    (∀ i, (runOps ops).currentSlideId = some i →
        (runOps ops).slides.countP (fun sl => sl.id = i) = 1) := by
  obtain ⟨hnd, _hlt, hiff, hmem⟩ := storeInv_runOps ops
  constructor
  · constructor
    · intro hsome hempty
      rw [hiff.mpr hempty] at hsome
      cases hsome
    · intro hne
      cases hc : (runOps ops).currentSlideId with
      | none => exact absurd (hiff.mp hc) hne
      | some c => rfl
  · intro i hi
    exact countP_id_eq_one hnd (hmem i hi)

/-- C2 witness: one `addSlide` from the empty state yields a non-empty
list whose single current id 0 names exactly one slide. -/
theorem C2_active_slide_invariant_witness :
    (runOps [StoreOp.add none 0]).currentSlideId.isSome = true ∧
    (runOps [StoreOp.add none 0]).slides.countP (fun sl => sl.id = 0) = 1 :=
  ⟨(C2_active_slide_invariant [StoreOp.add none 0]).1.mpr (by decide),
   (C2_active_slide_invariant [StoreOp.add none 0]).2 0 (by decide)⟩

/- ===== C5: persisted-document validation (fileHandlers.ts) ===== -/

/-- A JSON/JS value, as relevant to `validatePresentationData`. `jundefined`
models JS `undefined` (absent property); numbers carry a rational (JS
numbers are floating point; only `typeof` and exact literals matter
here). -/
inductive JValue where
  | jnull
  | jundefined
  | jbool (b : Bool)
  | jnum (n : ℚ)
  | jstr (s : String)
  | jarr (elems : List JValue)
  | jobj (fields : List (String × JValue))

/-- JS `typeof` (note `typeof null` is `"object"`, as are arrays). -/
def jsTypeof : JValue → String
  | .jnull => "object"
  | .jundefined => "undefined"
  | .jbool _ => "boolean"
  | .jnum _ => "number"
  | .jstr _ => "string"
  | .jarr _ => "object"
  | .jobj _ => "object"

/-- JS property access `v.k`: `none` models a thrown TypeError (access on
null/undefined); objects yield their first binding for `k` or
`undefined`; primitives and arrays have no such own property and yield
`undefined`. -/
def getField : JValue → String → Option JValue
  | .jnull, _ => none
  | .jundefined, _ => none
  | .jobj fields, k => some ((fields.lookup k).getD .jundefined)
  | _, _ => some .jundefined

/-- `Array.isArray`. -/
def isArray : JValue → Bool
  | .jarr _ => true
  | _ => false

/-- The JS check `data === null`. -/
def isNull : JValue → Bool
  | .jnull => true
  | _ => false

/-- The `&&`-chain inside `validatePresentationData`'s `slides.every`
callback: `id`, `name`, `canvasData` strings; `createdAt`, `updatedAt`
numbers (`none` models a thrown TypeError). -/
def validateSlideFields (slide : JValue) : Option Bool :=
  (getField slide "id").bind fun v1 =>
  if jsTypeof v1 = "string" then
    (getField slide "name").bind fun v2 =>
    if jsTypeof v2 = "string" then
      (getField slide "canvasData").bind fun v3 =>
      if jsTypeof v3 = "string" then
        (getField slide "createdAt").bind fun v4 =>
        if jsTypeof v4 = "number" then
          (getField slide "updatedAt").bind fun v5 =>
          some (jsTypeof v5 = "number")
        else some false
      else some false
    else some false
  else some false

/-- JS `Array.prototype.every` with a possibly-throwing callback. -/
def jsEvery (f : JValue → Option Bool) : List JValue → Option Bool
  | [] => some true
  | x :: xs =>
      (f x).bind fun b => if b then jsEvery f xs else some false

/-- `FileHandlers.validatePresentationData`: the exact source `&&`-chain,
with the JS quirks it relies on (`typeof data === 'object'` admits arrays
and `null`, hence the separate `data !== null` check). -/
def validatePresentationData (data : JValue) : Option Bool :=
  if jsTypeof data = "object" then
    if isNull data then some false
    else
      (getField data "name").bind fun n =>
      if jsTypeof n = "string" then
        (getField data "slides").bind fun sl =>
        if isArray sl then
          (getField data "version").bind fun v =>
          if jsTypeof v = "string" then
            match sl with
            | .jarr elems => jsEvery validateSlideFields elems
            | _ => some false
          else some false
        else some false
      else some false
  else some false

/-- Whether the load pipeline accepts the document: `loadJSONFile` calls
`resolve` only when validation returns `true`; a thrown TypeError during
validation is caught upstream and also rejects. -/
def decodeAccepts (d : JValue) : Bool :=
  match validatePresentationData d with
  | some true => true
  | _ => false

/-- The acceptance shape as worded by the spec: an object with
`name : string`, `slides` an array, `version : string`, and each slide
carrying `id`, `name`, `canvasData` strings and `createdAt`, `updatedAt`
numbers. -/
def specSlideOk : JValue → Bool
  | .jobj fields =>
      (match fields.lookup "id" with | some (.jstr _) => true | _ => false) &&
      (match fields.lookup "name" with | some (.jstr _) => true | _ => false) &&
      (match fields.lookup "canvasData" with | some (.jstr _) => true | _ => false) &&
      (match fields.lookup "createdAt" with | some (.jnum _) => true | _ => false) &&
      (match fields.lookup "updatedAt" with | some (.jnum _) => true | _ => false)
  | _ => false

/-- Spec-side acceptance of the whole document. -/
def specAccepts : JValue → Bool
  | .jobj fields =>
      (match fields.lookup "name" with | some (.jstr _) => true | _ => false) &&
      (match fields.lookup "version" with | some (.jstr _) => true | _ => false) &&
      (match fields.lookup "slides" with
       | some (.jarr elems) => elems.all specSlideOk
       | _ => false)
  | _ => false

/-- Reducer `setError` from `presentationSlice.ts`. -/
def setError (s : PresentationState) (e : Option String) : PresentationState :=
  { s with error := e }

/-- The Toolbar load pipeline (`handleLoadPresentation`): the store's
`loadPresentation` is dispatched only when the file resolves, i.e. when
validation accepted; on rejection the catch branch dispatches
`setError('Failed to load presentation')`. The decoded slide list and
name are passed abstractly (the source's string ids versus the model's
`Nat` ids). -/
def handleLoadPresentation (s : PresentationState) (d : JValue)
    (slides : List Slide) (name : String) (now : Nat) : PresentationState :=
  if decodeAccepts d then loadPresentation s slides name now
  else setError s (some "Failed to load presentation")

lemma typeof_getD_str (o : Option JValue) :
    (jsTypeof (o.getD .jundefined) = "string") ↔ ∃ s, o = some (.jstr s) := by
  cases o with
  | none => simp [jsTypeof]
  | some v => cases v <;> simp [jsTypeof]

lemma typeof_getD_num (o : Option JValue) :
    (jsTypeof (o.getD .jundefined) = "number") ↔ ∃ n, o = some (.jnum n) := by
  cases o with
  | none => simp [jsTypeof]
  | some v => cases v <;> simp [jsTypeof]

lemma slideOk_equiv (v : JValue) :
    (validateSlideFields v = some true) ↔ specSlideOk v = true := by
  cases v with
  | jobj fields =>
      simp only [validateSlideFields, getField, Option.some_bind, specSlideOk]
      by_cases h1 : jsTypeof ((fields.lookup "id").getD .jundefined) = "string"
      · rw [if_pos h1]
        by_cases h2 : jsTypeof ((fields.lookup "name").getD .jundefined) = "string"
        · rw [if_pos h2]
          by_cases h3 : jsTypeof ((fields.lookup "canvasData").getD .jundefined) = "string"
          · rw [if_pos h3]
            by_cases h4 : jsTypeof ((fields.lookup "createdAt").getD .jundefined) = "number"
            · rw [if_pos h4]
              rcases (typeof_getD_str _).mp h1 with ⟨s1, e1⟩
              rcases (typeof_getD_str _).mp h2 with ⟨s2, e2⟩
              rcases (typeof_getD_str _).mp h3 with ⟨s3, e3⟩
              rcases (typeof_getD_num _).mp h4 with ⟨n4, e4⟩
              rw [e1, e2, e3, e4]
              simp only [Option.some_inj, Bool.true_and]
              constructor
              · intro h5
                have := (typeof_getD_num _).mp (by simpa using h5)
                rcases this with ⟨n5, e5⟩
                rw [e5]
              · intro h5
                cases h5' : fields.lookup "updatedAt" with
                | none => rw [h5'] at h5; simp at h5
                | some w =>
                    rw [h5'] at h5
                    cases w <;> simp_all [jsTypeof]
            · rw [if_neg h4]
              rcases (typeof_getD_str _).mp h1 with ⟨s1, e1⟩
              rcases (typeof_getD_str _).mp h2 with ⟨s2, e2⟩
              rcases (typeof_getD_str _).mp h3 with ⟨s3, e3⟩
              rw [e1, e2, e3]
              simp only [Option.some_inj]
              constructor
              · intro hfalse; cases hfalse
              · intro hcontra
                exfalso
                apply h4
                rcases hc4 : fields.lookup "createdAt" with _ | w
                · rw [hc4] at hcontra; simp at hcontra
                · rw [hc4] at hcontra
                  cases w <;> simp_all [jsTypeof]
          · rw [if_neg h3]
            constructor
            · intro hfalse; cases hfalse
            · intro hcontra
              exfalso
              apply h3
              rw [typeof_getD_str]
              rcases hc3 : fields.lookup "canvasData" with _ | w
              · rw [hc3] at hcontra; simp at hcontra
              · rw [hc3] at hcontra
                cases w <;> simp_all
        · rw [if_neg h2]
          constructor
          · intro hfalse; cases hfalse
          · intro hcontra
            exfalso
            apply h2
            rw [typeof_getD_str]
            rcases hc2 : fields.lookup "name" with _ | w
            · rw [hc2] at hcontra; simp at hcontra
            · rw [hc2] at hcontra
              cases w <;> simp_all
      · rw [if_neg h1]
        constructor
        · intro hfalse; cases hfalse
        · intro hcontra
          exfalso
          apply h1
          rw [typeof_getD_str]
          rcases hc1 : fields.lookup "id" with _ | w
          · rw [hc1] at hcontra; simp at hcontra
          · rw [hc1] at hcontra
            cases w <;> simp_all
  | jnull => simp [validateSlideFields, getField, specSlideOk]
  | jundefined => simp [validateSlideFields, getField, specSlideOk]
  | jbool b => simp [validateSlideFields, getField, jsTypeof, specSlideOk]
  | jnum n => simp [validateSlideFields, getField, jsTypeof, specSlideOk]
  | jstr s => simp [validateSlideFields, getField, jsTypeof, specSlideOk]
  | jarr elems => simp [validateSlideFields, getField, jsTypeof, specSlideOk]

lemma jsEvery_eq_all (l : List JValue) :
    (jsEvery validateSlideFields l = some true) ↔ l.all specSlideOk = true := by
  induction l with
  | nil => simp [jsEvery]
  | cons x xs ih =>
      simp only [jsEvery, List.all_cons, Bool.and_eq_true]
      cases hx : validateSlideFields x with
      | none =>
          simp only [Option.none_bind]
          constructor
          · intro hfalse; cases hfalse
          · intro ⟨hspec, _⟩
            have := (slideOk_equiv x).mpr hspec
            rw [hx] at this
            cases this
      | some b =>
          cases b with
          | true =>
              have hspec : specSlideOk x = true := (slideOk_equiv x).mp hx
              simp [hspec, ih]
          | false =>
              simp only [Option.some_bind, if_neg (by simp : ¬(false = true))]
              constructor
              · intro hfalse; simp at hfalse
              · intro ⟨hspec, _⟩
                have := (slideOk_equiv x).mpr hspec
                rw [hx] at this
                cases this

lemma validate_equiv (d : JValue) :
    (validatePresentationData d = some true) ↔ specAccepts d = true := by
  cases d with
  | jobj fields =>
      simp only [validatePresentationData, getField, Option.some_bind,
        specAccepts]
      rw [if_pos (show jsTypeof (JValue.jobj fields) = "object" from rfl),
          if_neg (show ¬isNull (JValue.jobj fields) = true by simp [isNull])]
      by_cases hn : jsTypeof ((fields.lookup "name").getD .jundefined) = "string"
      · rw [if_pos hn]
        rcases (typeof_getD_str _).mp hn with ⟨sn, en⟩
        rw [en]
        rcases hs : fields.lookup "slides" with _ | w
        · simp [isArray]
        · cases w with
          | jarr elems =>
              rw [if_pos (by simp [isArray])]
              by_cases hv : jsTypeof ((fields.lookup "version").getD .jundefined) = "string"
              · rw [if_pos hv]
                rcases (typeof_getD_str _).mp hv with ⟨sv, ev⟩
                rw [ev]
                simpa using jsEvery_eq_all elems
              · rw [if_neg hv]
                constructor
                · intro hfalse; simp at hfalse
                · intro hcontra
                  exfalso
                  apply hv
                  rw [typeof_getD_str]
                  rcases hc : fields.lookup "version" with _ | w
                  · rw [hc] at hcontra; simp at hcontra
                  · rw [hc] at hcontra
                    cases w <;> simp_all
          | jnull => simp [isArray]
          | jundefined => simp [isArray]
          | jbool b => simp [isArray]
          | jnum n => simp [isArray]
          | jstr s => simp [isArray]
          | jobj fs => simp [isArray]
      · rw [if_neg hn]
        constructor
        · intro hfalse; simp at hfalse
        · intro hcontra
          exfalso
          apply hn
          rw [typeof_getD_str]
          rcases hc : fields.lookup "name" with _ | w
          · rw [hc] at hcontra; simp at hcontra
          · rw [hc] at hcontra
            cases w <;> simp_all
  | jnull => simp [validatePresentationData, jsTypeof, isNull, specAccepts]
  | jundefined => simp [validatePresentationData, jsTypeof, specAccepts]
  | jbool b => simp [validatePresentationData, jsTypeof, specAccepts]
  | jnum n => simp [validatePresentationData, jsTypeof, specAccepts]
  | jstr s => simp [validatePresentationData, jsTypeof, specAccepts]
  | jarr elems =>
      simp [validatePresentationData, jsTypeof, isNull, getField, specAccepts]

lemma decodeAccepts_eq_specAccepts (d : JValue) :
    decodeAccepts d = specAccepts d := by
  cases hs : specAccepts d
  · cases hd : decodeAccepts d
    · rfl
    · exfalso
      unfold decodeAccepts at hd
      rcases hv : validatePresentationData d with _ | b
      · rw [hv] at hd; simp at hd
      · rw [hv] at hd
        cases b
        · simp at hd
        · have := (validate_equiv d).mp hv
          rw [hs] at this
          cases this
  · unfold decodeAccepts
    rw [(validate_equiv d).mpr hs]

/-- The spec's rejection scenario: a `version: "0.9"` document whose sole
slide is missing the required `canvasData` field. -/
def badDoc : JValue :=
  .jobj [("name", .jstr "Deck"),
         ("slides", .jarr [.jobj [("id", .jstr "slide-1"),
                                  ("name", .jstr "Slide 1"),
                                  ("createdAt", .jnum 0),
                                  ("updatedAt", .jnum 0)]]),
         ("version", .jstr "0.9")]

/-- C5 counterexample: a rejected load does NOT leave the store state
untouched — the Toolbar catch branch sets the store's `error` field to
the failure message, so the resulting state differs from the original. -/
theorem C5_rejected_load_sets_error :
    decodeAccepts badDoc = false ∧
    (handleLoadPresentation oneSlideState badDoc [] "Deck" 9).error =
      some "Failed to load presentation" ∧
    oneSlideState.error = none ∧
    handleLoadPresentation oneSlideState badDoc [] "Deck" 9 ≠ oneSlideState := by
  refine ⟨by decide, rfl, rfl, ?_⟩
  intro h
  have : (handleLoadPresentation oneSlideState badDoc [] "Deck" 9).error =
      oneSlideState.error := by rw [h]
  simp at this
  exact absurd this (by decide)

/-- C5 (amended): the load pipeline accepts a persisted document exactly
when it matches the spec's shape (object with `name`/`version` strings,
`slides` array, every slide carrying typed `id`, `name`, `canvasData`,
`createdAt`, `updatedAt`); a rejected document causes no partial load —
the slide list, name, active slide id and index, tool, dirty flag,
`lastSaved` and id counter are all unchanged — while the store's `error`
field is set to the failure message as the user notification. -/
theorem C5_decode_validation_amended (d : JValue) (s : PresentationState)
    (slides : List Slide) (name : String) (now : Nat) :
    decodeAccepts d = specAccepts d ∧
    (specAccepts d = false →
        (handleLoadPresentation s d slides name now).slides = s.slides ∧
        (handleLoadPresentation s d slides name now).presentationName =
          s.presentationName ∧
        (handleLoadPresentation s d slides name now).currentSlideId =
          s.currentSlideId ∧
        (handleLoadPresentation s d slides name now).currentSlideIndex =
          s.currentSlideIndex ∧
        (handleLoadPresentation s d slides name now).selectedTool =
          s.selectedTool ∧
        (handleLoadPresentation s d slides name now).isDirty = s.isDirty ∧
        (handleLoadPresentation s d slides name now).lastSaved = s.lastSaved ∧
        (handleLoadPresentation s d slides name now).nextId = s.nextId ∧
        (handleLoadPresentation s d slides name now).error =
          some "Failed to load presentation") := by
  refine ⟨decodeAccepts_eq_specAccepts d, ?_⟩
  intro hfalse
  unfold handleLoadPresentation
  rw [decodeAccepts_eq_specAccepts d, hfalse]
  rw [if_neg (by simp)]
  exact ⟨rfl, rfl, rfl, rfl, rfl, rfl, rfl, rfl, rfl⟩

/-- C5 witness: the slide missing `canvasData` is rejected; no partial
load happens (slides, dirty flag unchanged) and the error message is
surfaced. -/
theorem C5_decode_validation_amended_witness :
    decodeAccepts badDoc = false ∧
    (handleLoadPresentation oneSlideState badDoc [] "Deck" 9).slides =
      oneSlideState.slides ∧
    (handleLoadPresentation oneSlideState badDoc [] "Deck" 9).isDirty =
      oneSlideState.isDirty ∧
    (handleLoadPresentation oneSlideState badDoc [] "Deck" 9).error =
      some "Failed to load presentation" := by
  have h := C5_decode_validation_amended badDoc oneSlideState [] "Deck" 9
  have hspec : specAccepts badDoc = false := by decide
  have h2 := h.2 hspec
  exact ⟨by rw [h.1, hspec], h2.1, h2.2.2.2.2.2.1, h2.2.2.2.2.2.2.2.2⟩

/- ===== C8: rectangle-tool bounds clamping (slideCanvas.tsx) ===== -/

/-- The clamping arithmetic of `addRectangle`: the rectangle is 120×80 and
`adjustedX = max(10, min(x - w/2, canvasWidth - w - 10))` (same for `y`
with the height); coordinates are modelled as rationals. -/
def addRectanglePos (canvasW canvasH x y : ℚ) : ℚ × ℚ :=
  (max 10 (min (x - 120 / 2) (canvasW - 120 - 10)),
   max 10 (min (y - 80 / 2) (canvasH - 80 - 10)))

/-- C8: on a 1200×800 canvas every pointer position yields a rectangle
with `left, top ≥ 10` whose 120×80 bounding box stays inside the canvas
minus the 10px margin; a click at (5,5) yields exactly (10,10). -/
theorem C8_rectangle_clamped (x y : ℚ)
    (hx0 : 0 ≤ x) (hx : x ≤ 1200) (hy0 : 0 ≤ y) (hy : y ≤ 800) :
    10 ≤ (addRectanglePos 1200 800 x y).1 ∧
    10 ≤ (addRectanglePos 1200 800 x y).2 ∧
    (addRectanglePos 1200 800 x y).1 + 120 ≤ 1200 - 10 ∧
    (addRectanglePos 1200 800 x y).2 + 80 ≤ 800 - 10 ∧
    addRectanglePos 1200 800 5 5 = (10, 10) := by
  refine ⟨le_max_left _ _, le_max_left _ _, ?_, ?_, ?_⟩
  · have hmin : min (x - 120 / 2) (1200 - 120 - 10 : ℚ) ≤ 1070 := by
      have := min_le_right (x - 120 / 2) (1200 - 120 - 10 : ℚ)
      linarith
    have hmax : (addRectanglePos 1200 800 x y).1 ≤ 1070 := by
      unfold addRectanglePos
      exact max_le (by norm_num) hmin
    linarith
  · have hmin : min (y - 80 / 2) (800 - 80 - 10 : ℚ) ≤ 710 := by
      have := min_le_right (y - 80 / 2) (800 - 80 - 10 : ℚ)
      linarith
    have hmax : (addRectanglePos 1200 800 x y).2 ≤ 710 := by
      unfold addRectanglePos
      exact max_le (by norm_num) hmin
    linarith
  · unfold addRectanglePos
    have h1 : min ((5 : ℚ) - 120 / 2) (1200 - 120 - 10) = -55 := by
      rw [min_eq_left] <;> norm_num
    have h2 : min ((5 : ℚ) - 80 / 2) (800 - 80 - 10) = -35 := by
      rw [min_eq_left] <;> norm_num
    rw [h1, h2]
    have h3 : max (10 : ℚ) (-55) = 10 := by
      rw [max_eq_left]
      norm_num
    have h4 : max (10 : ℚ) (-35) = 10 := by
      rw [max_eq_left]
      norm_num
    rw [h3, h4]

/-- C8 witness: the concrete (5,5) click on the 1200×800 canvas. -/
theorem C8_rectangle_clamped_witness :
    10 ≤ (addRectanglePos 1200 800 5 5).1 ∧
    (addRectanglePos 1200 800 5 5).1 + 120 ≤ 1200 - 10 := by
  have h := C8_rectangle_clamped 5 5 (by norm_num) (by norm_num)
    (by norm_num) (by norm_num)
  exact ⟨h.1, h.2.2.1⟩

/- ===== C3 and C4: debounced-save and async image-insert ordering ===== -/

/-- Event-level model of the canvas component (`slideCanvas.tsx`): the
single live fabric canvas (its serialized content), the Redux store, the
current slide id as the component sees it, and the pending debounced-save
timer. `pendingTimer` holds the `currentSlideId` captured by the
`debouncedSaveCanvasState` closure when the save was scheduled; the
source never cancels, reassigns or flushes that timer on a slide switch
or unmount. -/
structure EditorModel where
  store : PresentationState
  live : String
  activeId : Option Nat
  pendingTimer : Option Nat
deriving DecidableEq, Repr

/-- A scene mutation (`object:modified`/`object:added`/`object:removed`):
the live scene changes and `debouncedSaveCanvasState` clears and
reschedules the 500ms timer; its callback captures the current slide id. -/
def emMutate (m : EditorModel) (scene : String) : EditorModel :=
  { m with live := scene, pendingTimer := m.activeId }

/-- The debounce timer firing (500ms later): the callback reads the shared
`fabricCanvasRef.current` — the single live canvas, whatever it shows by
now — and dispatches `updateSlide` with its captured slide id (the
thumbnail argument is opaque and modelled as absent). -/
def emTimerFire (m : EditorModel) (now : Nat) : EditorModel :=
  match m.pendingTimer with
  | none => m
  | some cid =>
      { m with store := updateSlide m.store ⟨cid, some m.live, none, none⟩ now
               pendingTimer := none }

/-- Switching the active slide (dispatching `setCurrentSlide` plus the
component effects that run when `currentSlideId` changes): the canvas is
disposed and recreated, and the slide-load effect replaces the live
content with the target slide's stored `canvasData`. The source neither
flushes nor cancels a pending debounced save at this boundary. -/
def emSwitchSlide (m : EditorModel) (target : Nat) : EditorModel :=
  let store' := setCurrentSlide m.store target
  { m with store := store'
           activeId := store'.currentSlideId
           live := match findSlide (fun sl => sl.id = target) store'.slides with
                   | some sl => sl.canvasData
                   | none => m.live }

/-- Completion of a pending `addImageFromUrl`/`addImageFromFile` request:
after the awaited loads resolve, the source appends the image to
`fabricCanvasRef.current` — whichever slide's scene is live by then —
with no check that the initiating slide is still active; the resulting
`object:added` event schedules a debounced save. -/
def emImageComplete (m : EditorModel) (img : String) : EditorModel :=
  { m with live := m.live ++ "+" ++ img, pendingTimer := m.activeId }

/-- A two-slide store: slide 0 ("A", empty snapshot, active) and slide 1
("B", snapshot "SCENE-B"). -/
def twoSlideStore : PresentationState :=
  updateSlide (addSlide (addSlide initialState (some "A") 0) (some "B") 0)
    ⟨1, some "SCENE-B", none, none⟩ 0

/-- The canvas session sitting on slide 0 of `twoSlideStore`. -/
def em0 : EditorModel :=
  { store := twoSlideStore
    live := emptyCanvasData
    activeId := twoSlideStore.currentSlideId
    pendingTimer := none }

/-- C3 (code bug): mutate slide 0's scene, switch to slide 1 before the
500ms debounce elapses. At the switch nothing is flushed — slide 0's
persisted snapshot still holds the pre-mutation content, the timer is
still pending — and when the timer later fires, its stale closure writes
the NEW canvas content (slide 1's scene) under slide 0's id. Slide 0's
snapshot never reflects the mutation "MUTATED". -/
theorem C3_pending_write_not_flushed :
    (emSwitchSlide (emMutate em0 "MUTATED") 1).pendingTimer = some 0 ∧
    ((findSlide (fun sl => sl.id = 0)
        (emSwitchSlide (emMutate em0 "MUTATED") 1).store.slides).map
          Slide.canvasData) = some emptyCanvasData ∧
    ((findSlide (fun sl => sl.id = 0)
        (emTimerFire (emSwitchSlide (emMutate em0 "MUTATED") 1) 5).store.slides).map
          Slide.canvasData) = some "SCENE-B" ∧
    ("SCENE-B" : String) ≠ "MUTATED" ∧ (emptyCanvasData ≠ "MUTATED") := by
  refine ⟨rfl, rfl, rfl, by decide, by decide⟩

/-- C4 (code bug): an image insert initiated while slide 0 is active that
completes after the switch to slide 1 is NOT discarded: it is appended to
the now-live scene (slide 1's), even though the initiating slide is no
longer active. -/
theorem C4_stale_image_inserted :
    em0.activeId = some 0 ∧
    (emSwitchSlide em0 1).activeId = some 1 ∧
    em0.activeId ≠ (emSwitchSlide em0 1).activeId ∧
    (emImageComplete (emSwitchSlide em0 1) "IMG").live = "SCENE-B" ++ "+" ++ "IMG" ∧
    (emImageComplete (emSwitchSlide em0 1) "IMG").live ≠ (emSwitchSlide em0 1).live := by
  refine ⟨rfl, rfl, by decide, rfl, by decide⟩

/- ===== C7: scene snapshot round-trip (Persistence Codec / Scene
Adapter). Modelled from the spec: the serialization itself is performed
by the third-party fabric library (`canvas.toJSON` / `loadFromJSON`),
whose code is not part of this repository; the snapshot form below
follows the spec's canonical JSON description
(`{ "objects": [...], "background": string }`, each object tagged with
`type ∈ {textbox, rect, circle, line, image, group}` and its
position/geometry/style attributes). ===== -/

mutual
/-- Modelled from the spec: a scene object, a tagged variant over
textbox/rect/circle/line/image/group carrying position, kind-specific
geometry and style attributes (the fabric object model is not in the
repository). -/
inductive SceneObject where
  | textbox (left top width fontSize : ℚ)
      (text fontFamily fill fontWeight textAlign : String)
  | rect (left top width height strokeWidth : ℚ) (fill stroke : String)
  | circle (left top radius strokeWidth : ℚ) (fill stroke : String)
  | line (x1 y1 x2 y2 strokeWidth : ℚ) (stroke : String)
  | image (left top scaleX scaleY : ℚ) (src : String)
  | group (left top : ℚ) (objects : SceneList)
/-- A list of scene objects (mutual with `SceneObject` for the `group`
kind). -/
inductive SceneList where
  | nil
  | cons (o : SceneObject) (rest : SceneList)
end

/-- Modelled from the spec: a scene graph — an ordered object list plus a
background color. -/
structure Scene where
  objects : SceneList
  background : String

mutual
/-- Modelled from the spec: `captureSnapshot`'s canonical JSON form for
one object (field order fixed by the model). -/
def encodeObj : SceneObject → JValue
  | .textbox l t w fs tx ff fi fw ta =>
      .jobj [("type", .jstr "textbox"), ("left", .jnum l), ("top", .jnum t),
             ("width", .jnum w), ("fontSize", .jnum fs), ("text", .jstr tx),
             ("fontFamily", .jstr ff), ("fill", .jstr fi),
             ("fontWeight", .jstr fw), ("textAlign", .jstr ta)]
  | .rect l t w h sw fi st =>
      .jobj [("type", .jstr "rect"), ("left", .jnum l), ("top", .jnum t),
             ("width", .jnum w), ("height", .jnum h),
             ("strokeWidth", .jnum sw), ("fill", .jstr fi),
             ("stroke", .jstr st)]
  | .circle l t r sw fi st =>
      .jobj [("type", .jstr "circle"), ("left", .jnum l), ("top", .jnum t),
             ("radius", .jnum r), ("strokeWidth", .jnum sw),
             ("fill", .jstr fi), ("stroke", .jstr st)]
  | .line x1 y1 x2 y2 sw st =>
      .jobj [("type", .jstr "line"), ("x1", .jnum x1), ("y1", .jnum y1),
             ("x2", .jnum x2), ("y2", .jnum y2), ("strokeWidth", .jnum sw),
             ("stroke", .jstr st)]
  | .image l t sx sy src =>
      .jobj [("type", .jstr "image"), ("left", .jnum l), ("top", .jnum t),
             ("scaleX", .jnum sx), ("scaleY", .jnum sy), ("src", .jstr src)]
  | .group l t objs =>
      .jobj [("type", .jstr "group"), ("left", .jnum l), ("top", .jnum t),
             ("objects", .jarr (encodeList objs))]
/-- Encode a scene-object list. -/
def encodeList : SceneList → List JValue
  | .nil => []
  | .cons o rest => encodeObj o :: encodeList rest
end


/-- Decode the attribute list of a `textbox` object. -/
def decodeTextbox : List (String × JValue) → Option SceneObject
  | [("left", .jnum l), ("top", .jnum t), ("width", .jnum w),
     ("fontSize", .jnum fs), ("text", .jstr tx), ("fontFamily", .jstr ff),
     ("fill", .jstr fi), ("fontWeight", .jstr fw),
     ("textAlign", .jstr ta)] =>
      some (.textbox l t w fs tx ff fi fw ta)
  | _ => none

/-- Decode the attribute list of a `rect` object. -/
def decodeRect : List (String × JValue) → Option SceneObject
  | [("left", .jnum l), ("top", .jnum t), ("width", .jnum w),
     ("height", .jnum h), ("strokeWidth", .jnum sw), ("fill", .jstr fi),
     ("stroke", .jstr st)] =>
      some (.rect l t w h sw fi st)
  | _ => none

/-- Decode the attribute list of a `circle` object. -/
def decodeCircle : List (String × JValue) → Option SceneObject
  | [("left", .jnum l), ("top", .jnum t), ("radius", .jnum r),
     ("strokeWidth", .jnum sw), ("fill", .jstr fi), ("stroke", .jstr st)] =>
      some (.circle l t r sw fi st)
  | _ => none

/-- Decode the attribute list of a `line` object. -/
def decodeLine : List (String × JValue) → Option SceneObject
  | [("x1", .jnum x1), ("y1", .jnum y1), ("x2", .jnum x2),
     ("y2", .jnum y2), ("strokeWidth", .jnum sw), ("stroke", .jstr st)] =>
      some (.line x1 y1 x2 y2 sw st)
  | _ => none

/-- Decode the attribute list of an `image` object. -/
def decodeImage : List (String × JValue) → Option SceneObject
  | [("left", .jnum l), ("top", .jnum t), ("scaleX", .jnum sx),
     ("scaleY", .jnum sy), ("src", .jstr src)] =>
      some (.image l t sx sy src)
  | _ => none

mutual
/-- Modelled from the spec: deserialization of one object of the
canonical form, dispatching on the `type` tag; any other shape (unknown
kind, missing or mistyped attribute) is rejected with `none`. -/
def decodeObj : JValue → Option SceneObject
  | .jobj (("type", .jstr ty) :: rest) =>
      if ty = "textbox" then decodeTextbox rest
      else if ty = "rect" then decodeRect rest
      else if ty = "circle" then decodeCircle rest
      else if ty = "line" then decodeLine rest
      else if ty = "image" then decodeImage rest
      else if ty = "group" then decodeGroup rest
      else none
  | _ => none
/-- Decode the attribute list of a `group` object (recursing into its
members). -/
def decodeGroup : List (String × JValue) → Option SceneObject
  | [("left", .jnum l), ("top", .jnum t), ("objects", .jarr elems)] =>
      (decodeObjs elems).map (SceneObject.group l t)
  | _ => none
/-- Decode a list of objects; fails if any element fails. -/
def decodeObjs : List JValue → Option SceneList
  | [] => some .nil
  | v :: vs =>
      match decodeObj v, decodeObjs vs with
      | some o, some rest => some (.cons o rest)
      | _, _ => none
end

/-- Modelled from the spec: `encode`/`captureSnapshot` of a whole scene. -/
def encodeScene (s : Scene) : JValue :=
  .jobj [("objects", .jarr (encodeList s.objects)),
         ("background", .jstr s.background)]

/-- Modelled from the spec: `decode` of a whole scene snapshot. -/
def decodeScene : JValue → Option Scene
  | .jobj [("objects", .jarr elems), ("background", .jstr bg)] =>
      (decodeObjs elems).map (fun l => ⟨l, bg⟩)
  | _ => none

mutual
lemma decodeObj_encodeObj : ∀ (o : SceneObject),
    decodeObj (encodeObj o) = some o
  | .textbox l t w fs tx ff fi fw ta => rfl
  | .rect l t w h sw fi st => rfl
  | .circle l t r sw fi st => rfl
  | .line x1 y1 x2 y2 sw st => rfl
  | .image l t sx sy src => rfl
  | .group l t objs => by
      have h := decodeObjs_encodeList objs
      show (decodeObjs (encodeList objs)).map (SceneObject.group l t) = _
      rw [h]
      rfl
lemma decodeObjs_encodeList : ∀ (l : SceneList),
    decodeObjs (encodeList l) = some l
  | .nil => rfl
  | .cons o rest => by
      have h1 := decodeObj_encodeObj o
      have h2 := decodeObjs_encodeList rest
      show (match decodeObj (encodeObj o), decodeObjs (encodeList rest) with
            | some o', some rest' => some (SceneList.cons o' rest')
            | _, _ => none) = _
      rw [h1, h2]
end

/-- C7: the scene codec is lossless — decoding an encoded scene returns
the scene unchanged, for every object kind including nested groups. -/
theorem C7_snapshot_roundtrip (S : Scene) :
    decodeScene (encodeScene S) = some S := by
  cases S with
  | mk objs bg =>
      have h := decodeObjs_encodeList objs
      show (decodeObjs (encodeList objs)).map (fun l => Scene.mk l bg) = _
      rw [h]
      rfl
